import Mathlib

/-!
# State view of actor state (`internal/pkg/state/view.go`)

A shallow embedding of the read-only `View` over a state snapshot, and
theorems about its queries.

Conventions of the embedding.

* A Go function of `view.go` returning `(T, error)` becomes a Lean function
  returning the pair `T × Option Err`: the second component is `none` for a
  `nil` error, and the first component is the value the Go code writes in
  that `return` statement (`nil`, `addr.Undef`, `big.Zero()`, ...).
* The loaders (`loadActor` with its exported alias `LoadActor`,
  `loadMinerActor`, ...) hand their caller a pointer or interface that every
  caller in `view.go` reads only after checking `err == nil`; they are
  embedded as `Except Err _`.
* Types and functions of other packages (`adt`, `miner`, `market`, `power`,
  `init`, `account`, `bitfield`, the state tree) are not part of `view.go`.
  They appear as records whose fields give the result of each method the
  view calls, so a theorem quantified over such a record holds for every
  behaviour of the collaborator.
* A Go callback that appends to a captured slice becomes a function that
  takes and returns the slice; a visitor supplied by the caller likewise
  takes and returns the state its closure acts on.
* A Go call that can dereference a nil pointer has an `Outcome`: the results
  it returns, or a panic.
-/

namespace Venus

/-! ## Addresses, identifiers and errors -/

/-- The protocol byte of an address (`addr.ID`, `addr.SECP256K1`,
`addr.Actor`, `addr.BLS`, `addr.Unknown`). -/
inductive Protocol where
  | ID
  | SECP256K1
  | Actor
  | BLS
  | Unknown
  deriving DecidableEq, Repr

/-- An address of `go-address`: its protocol and its payload bytes. -/
structure Address where
  protocol : Protocol
  payload : List Nat
  deriving DecidableEq, Repr

/-- The undefined address `addr.Undef`. -/
def Address.Undef : Address := ⟨Protocol.Unknown, []⟩

/-- `Address.Protocol()`. -/
def Address.Protocol (a : Address) : Protocol := a.protocol

/-- A content identifier, written as a string. -/
abbrev Cid := String

/-- Error values. `ErrNotFound` is the sentinel `types.ErrNotFound`;
`external` stands for any error value produced by a collaborator (store,
container, actor loader); the other constructors are the errors that
`view.go` builds itself with `xerrors.New` and `xerrors.Errorf`. -/
inductive Err where
  /-- The sentinel `types.ErrNotFound`. -/
  | ErrNotFound
  /-- An error value coming from a collaborator. -/
  | external (code : Nat)
  /-- The error `xerrors.New(msg)`. -/
  | new (msg : String)
  /-- The error `xerrors.Errorf(format, address)`, no wrapped error. -/
  | errorfAddr (format : String) (address : Address)
  /-- The error `xerrors.Errorf(format, err)` with `%w` of a non-nil `err`. -/
  | wrap (format : String) (err : Err)
  /-- The error `xerrors.Errorf(format, nil)` with `%w` of a nil error. -/
  | wrapNil (format : String)
  /-- The error `xerrors.Errorf(format, address, err)` with `%s` and `%w`. -/
  | wrapAddr (format : String) (address : Address) (err : Err)
  deriving DecidableEq, Repr

/-- `xerrors.Errorf(format, err)` where `err` may be nil. -/
def Err.errorfW (format : String) : Option Err → Err
  | some err => Err.wrap format err
  | none => Err.wrapNil format

/-! ## Bitfields -/

/-- Modelled from the spec: `bitfield.BitField` of `go-bitfield`, the
"compact set-of-integers representation used for sector membership". A
bitfield either decodes to a finite set of sector numbers or is malformed,
in which case reading it fails with an error. -/
inductive BitField where
  | wellFormed (s : Finset Nat)
  | malformed (err : Err)
  deriving DecidableEq

/-- Modelled from the spec: `bitfield.SubtractBitField(a, b)` of
`go-bitfield`, "set difference over bitfields", which fails on a malformed
bitfield. -/
def SubtractBitField : BitField → BitField → Except Err BitField
  | BitField.wellFormed a, BitField.wellFormed b => Except.ok (BitField.wellFormed (a \ b))
  | BitField.malformed err, _ => Except.error err
  | BitField.wellFormed _, BitField.malformed err => Except.error err

/-! ## Containers -/

/-- Modelled from the spec: `Sequence.ForEach(visitor)` of the container
adapters (`internal/pkg/specactors/adt`), which "visits in strictly
ascending index order; stops and propagates on first visitor error", a
decode failure of an element being an error that ends the traversal. The
sequence is the list of its slots in index order, a slot being the decoded
element or the error its decoding gives; `s` is the state the visitor
closes over and `i` the index of the first slot. -/
def Sequence.ForEachFrom {α σ : Type} (cb : σ → Nat → α → σ × Option Err) :
    Nat → List (Except Err α) → σ → σ × Option Err
  | _, [], s => (s, none)
  | _, Except.error err :: _, s => (s, some err)
  | i, Except.ok a :: rest, s =>
    match cb s i a with
    | (s', some err) => (s', some err)
    | (s', none) => Sequence.ForEachFrom cb (i + 1) rest s'

/-! ## Miner state -/

/-- The interface `miner.Partition`: the results of `AllSectors()` and
`FaultySectors()`. -/
structure Partition where
  AllSectors : Except Err BitField
  FaultySectors : Except Err BitField

/-- The interface `miner.Deadline`: its partitions array, which may fail to
open, each slot of which may fail to decode. -/
structure Deadline where
  partitions : Except Err (List (Except Err Partition))

/-- Modelled from the spec: `Deadline.ForEachPartition(cb)` of
`internal/pkg/specactors/builtin/miner`: opens the partitions array and
visits it in ascending index order. -/
def Deadline.ForEachPartition {σ : Type} (dl : Deadline)
    (cb : σ → Nat → Partition → σ × Option Err) (s : σ) : σ × Option Err :=
  match dl.partitions with
  | Except.error err => (s, some err)
  | Except.ok ps => Sequence.ForEachFrom cb 0 ps s

/-- The record `miner.MinerInfo`; `PeerId` is a pointer, `none` when nil. -/
structure MinerInfo where
  Owner : Address
  Worker : Address
  PeerId : Option String
  SealProofType : Int
  SectorSize : Nat
  WindowPoStPartitionSectors : Nat
  deriving DecidableEq, Repr

/-- A sector record (`miner0.SectorOnChainInfo`, `miner2.SectorOnChainInfo`,
`miner.SectorOnChainInfo`), as far as the view reads it. -/
structure SectorOnChainInfo where
  SectorNumber : Nat
  SealedCID : Cid
  SealProof : Int
  DealIDs : List Nat
  deriving DecidableEq, Repr

/-- The record `miner.SectorPreCommitOnChainInfo`, in short. -/
structure SectorPreCommitOnChainInfo where
  SectorNumber : Nat
  PreCommitDeposit : Int
  PreCommitEpoch : Int
  deriving DecidableEq, Repr

/-- The two sector record types an element of the sectors array can be
unmarshalled into: `miner0.SectorOnChainInfo` and
`miner2.SectorOnChainInfo`. -/
inductive SectorRecord where
  | miner0
  | miner2
  deriving DecidableEq, Repr

/-- One stored element of a miner's sectors array: what unmarshalling it
into the version-0 record gives, and what unmarshalling it into the
version-2 record gives. -/
structure SectorSlot where
  as0 : Except Err SectorOnChainInfo
  as2 : Except Err SectorOnChainInfo

/-- Unmarshalling a stored element into a record of the given type. -/
def SectorSlot.decode (record : SectorRecord) (slot : SectorSlot) :
    Except Err SectorOnChainInfo :=
  match record with
  | SectorRecord.miner0 => slot.as0
  | SectorRecord.miner2 => slot.as2

/-- The interface `adt.Array` for a miner's sectors: its stored elements in
ascending index order. -/
structure AdtArray where
  slots : List SectorSlot

/-- Modelled from the spec: `adt.Array.ForEach(out, fn)` of
`internal/pkg/specactors/adt`: unmarshals each element in ascending index
order into `out`, whose type is `record`, and calls `fn` with the index;
a decode failure or an error of `fn` ends the traversal. -/
def AdtArray.ForEach {σ : Type} (arr : AdtArray) (record : SectorRecord)
    (fn : σ → Nat → SectorOnChainInfo → σ × Option Err) (s : σ) : σ × Option Err :=
  Sequence.ForEachFrom fn 0 (arr.slots.map (SectorSlot.decode record)) s

/-- The interface `miner.State`. `actorsVersion` is the schema version of
the state behind the interface (0 or 2); `Info`, `SectorArray`, `GetSector`
and `GetPrecommittedSector` give the results of these methods, the last two
as the Go pair of pointer and error; the deadlines record may fail to load,
and so may each deadline. -/
structure MinerState where
  actorsVersion : Nat
  Info : Except Err MinerInfo
  SectorArray : Except Err AdtArray
  GetSector : Nat → Option SectorOnChainInfo × Option Err
  GetPrecommittedSector : Nat → Option SectorPreCommitOnChainInfo × Option Err
  deadlines : Except Err (List (Except Err Deadline))

/-- Modelled from the spec: `State.ForEachDeadline(cb)` of
`internal/pkg/specactors/builtin/miner`: loads the deadlines and visits
them in ascending index order. -/
def MinerState.ForEachDeadline {σ : Type} (st : MinerState)
    (cb : σ → Nat → Deadline → σ × Option Err) (s : σ) : σ × Option Err :=
  match st.deadlines with
  | Except.error err => (s, some err)
  | Except.ok dls => Sequence.ForEachFrom cb 0 dls s

/-! ## Actor records and the other actor states -/

/-- The record `actor.Actor` of the top-level state mapping: code identity,
state root, call sequence number and balance. -/
structure Actor where
  Code : Cid
  Head : Cid
  CallSeqNum : Nat
  Balance : Int
  deriving DecidableEq, Repr

/-- What `adt.Map.Get(key, &out)` hands back: the two results `found` and
`err`, and the content of `out` after the call. -/
structure MapGet where
  found : Bool
  err : Option Err
  out : Actor

/-- The interface `adt.Map` for the top-level mapping from address to actor
record: the result of `Get` at each address. -/
structure AdtMap where
  Get : Address → MapGet

/-- What `init.State.ResolveAddress(a)` hands back: the three results of
the Go call. -/
structure ResolveResult where
  addr : Address
  found : Bool
  err : Option Err

/-- The interface `init.State`. -/
structure InitState where
  NetworkName : String × Option Err
  ResolveAddress : Address → ResolveResult

/-- The interface `account.State`. -/
structure AccountState where
  PubkeyAddress : Address × Option Err

/-- The record `market.DealProposal`, as far as the view reads it. -/
structure DealProposal where
  PieceCID : Cid
  PieceSize : Nat
  Client : Address
  Provider : Address
  deriving DecidableEq, Repr

/-- The record `market.DealState`. -/
structure DealState where
  SectorStartEpoch : Int
  LastUpdatedEpoch : Int
  SlashEpoch : Int
  deriving DecidableEq, Repr

/-- Modelled from the spec: the interface `market.DealProposals`
(`internal/pkg/specactors/builtin/market`), a `Mapping.Get(key) -> (V, found)`
whose lookup fails with an error, reports not found (`ok none`), or finds an
entry (`ok (some p)`). -/
structure DealProposals where
  Get : Nat → Except Err (Option DealProposal)

/-- Modelled from the spec: the interface `market.DealStates`
(`internal/pkg/specactors/builtin/market`), as `DealProposals`. -/
structure DealStates where
  Get : Nat → Except Err (Option DealState)

/-- The interface `market.State`. `TotalLocked` is the pair the Go method
returns. -/
structure MarketState where
  Proposals : Except Err DealProposals
  States : Except Err DealStates
  TotalLocked : Int × Option Err

/-- The interface `power.State`, as far as locked funds go. -/
structure PowerState where
  TotalLocked : Int × Option Err

/-- What `vmstate.Tree.GetActor(ctx, addr)` hands back: an actor found
without error, no actor and no error, or an error (with whatever `found`
flag accompanies it). -/
inductive GetActorResult where
  | found (act : Actor)
  | notFound
  | failed (found : Bool) (err : Err)

/-- The interface `vmstate.Tree`. -/
structure Tree where
  GetActor : Address → GetActorResult

/-! ## The view -/

/-- The collaborators of a view: the store `cbor.IpldStore` as seen through
the package functions that read it (`adt.AsMap` and the `Load` function of
each actor package), together with the conversion `specactors.Version` from
a network version to an actors version. -/
structure IpldStore where
  specactorsVersion : Nat → Nat
  AsMap : Cid → Nat → Except Err AdtMap
  initLoad : Actor → Except Err InitState
  accountLoad : Actor → Except Err AccountState
  minerLoad : Actor → Except Err MinerState
  marketLoad : Actor → Except Err MarketState
  powerLoad : Actor → Except Err PowerState

/-- The struct `View`: store, state root and network version. -/
structure View where
  ipldStore : IpldStore
  root : Cid
  networkVersion : Nat

/-- The ID address with the given actor id. -/
def Address.newID (id : Nat) : Address := ⟨Protocol.ID, [id]⟩

/-- The address `builtin.InitActorAddr`. -/
def InitActorAddr : Address := Address.newID 1

/-- The address `builtin.StoragePowerActorAddr`. -/
def StoragePowerActorAddr : Address := Address.newID 4

/-- The address `builtin.StorageMarketActorAddr`. -/
def StorageMarketActorAddr : Address := Address.newID 5

/-- The code identity `builtin.AccountActorCodeID`. -/
def AccountActorCodeID : Cid := "fil/1/account"

/-- `View.asMap`. -/
def View.asMap (v : View) (root : Cid) : Except Err AdtMap :=
  v.ipldStore.AsMap root (v.ipldStore.specactorsVersion v.networkVersion)

/-- `View.loadActor`: `found` is tested before `err`. The Go function
returns `(nil, types.ErrNotFound)` or `(&actr, err)`. -/
def View.loadActor (v : View) (address : Address) : Except Err Actor :=
  match v.asMap v.root with
  | Except.error err => Except.error err
  | Except.ok tree =>
    let r := tree.Get address
    if !r.found then Except.error Err.ErrNotFound
    else
      match r.err with
      | some err => Except.error err
      | none => Except.ok r.out

/-- `View.LoadActor`. -/
def View.LoadActor (v : View) (address : Address) : Except Err Actor :=
  v.loadActor address

/-- `View.loadInitActor`. -/
def View.loadInitActor (v : View) : Except Err InitState :=
  match v.loadActor InitActorAddr with
  | Except.error err => Except.error err
  | Except.ok actr => v.ipldStore.initLoad actr

/-- `View.InitResolveAddress`: the second result of `ResolveAddress`, the
found flag, is dropped. -/
def View.InitResolveAddress (v : View) (a : Address) : Address × Option Err :=
  if a.Protocol = Protocol.ID then (a, none)
  else
    match v.loadInitActor with
    | Except.error err => (Address.Undef, some err)
    | Except.ok initState =>
      let r := initState.ResolveAddress a
      match r.err with
      | some err => (Address.Undef, some err)
      | none => (r.addr, none)

/-- `View.loadMinerActor`. -/
def View.loadMinerActor (v : View) (address : Address) : Except Err MinerState :=
  match v.InitResolveAddress address with
  | (_, some err) => Except.error err
  | (resolvedAddr, none) =>
    match v.loadActor resolvedAddr with
    | Except.error err => Except.error err
    | Except.ok actr => v.ipldStore.minerLoad actr

/-- `View.loadPowerActor`. -/
def View.loadPowerActor (v : View) : Except Err PowerState :=
  match v.loadActor StoragePowerActorAddr with
  | Except.error err => Except.error err
  | Except.ok actr => v.ipldStore.powerLoad actr

/-- `View.loadMarketActor`. -/
def View.loadMarketActor (v : View) : Except Err MarketState :=
  match v.loadActor StorageMarketActorAddr with
  | Except.error err => Except.error err
  | Except.ok actr => v.ipldStore.marketLoad actr

/-- The visitor that `GetPartsProving` passes to `ForEachPartition`;
`partsProving` is the slice the Go closure appends to. -/
def GetPartsProving.visitPartition (partsProving : List BitField) (_idx : Nat)
    (part : Partition) : List BitField × Option Err :=
  match part.AllSectors with
  | Except.error err => (partsProving, some err)
  | Except.ok allSectors =>
    match part.FaultySectors with
    | Except.error err => (partsProving, some err)
    | Except.ok faultySectors =>
      match SubtractBitField allSectors faultySectors with
      | Except.error err =>
        (partsProving, some (Err.wrap "subtract faults from partition sectors: %w" err))
      | Except.ok p => (partsProving ++ [p], none)

/-- The visitor that `GetPartsProving` passes to `ForEachDeadline`. -/
def GetPartsProving.visitDeadline (partsProving : List BitField) (_idx : Nat)
    (dl : Deadline) : List BitField × Option Err :=
  match dl.ForEachPartition GetPartsProving.visitPartition partsProving with
  | (partsProving', some err) => (partsProving', some err)
  | (partsProving', none) => (partsProving', none)

/-- `View.GetPartsProving`. The nil slice is the empty list. -/
def View.GetPartsProving (v : View) (maddr : Address) : List BitField × Option Err :=
  match v.loadMinerActor maddr with
  | Except.error err => ([], some err)
  | Except.ok minerState =>
    match minerState.ForEachDeadline GetPartsProving.visitDeadline [] with
    | (_, some err) => ([], some err)
    | (partsProving, none) => (partsProving, none)

/-- The free function `getFilMarketLocked`. -/
def getFilMarketLocked (ipldStore : IpldStore) (st : Tree) : Int × Option Err :=
  match st.GetActor StorageMarketActorAddr with
  | GetActorResult.notFound =>
    (0, some (Err.errorfW "failed to load market actor: %w" none))
  | GetActorResult.failed _ err =>
    (0, some (Err.errorfW "failed to load market actor: %w" (some err)))
  | GetActorResult.found mactor =>
    match ipldStore.marketLoad mactor with
    | Except.error err => (0, some (Err.wrap "failed to load market state: %w" err))
    | Except.ok mst => mst.TotalLocked

/-- `View.GetFilLocked`; `big.Zero()` is `0` and `big.Add` is `+`. -/
def View.GetFilLocked (v : View) (st : Tree) : Int × Option Err :=
  match getFilMarketLocked v.ipldStore st with
  | (_, some err) => (0, some (Err.wrap "failed to get filMarketLocked: %w" err))
  | (filMarketLocked, none) =>
    match v.loadPowerActor with
    | Except.error err => (0, some (Err.wrap "failed to get filPowerLocked: %w" err))
    | Except.ok powerState =>
      match powerState.TotalLocked with
      | (_, some err) => (0, some (Err.wrap "failed to get filPowerLocked: %w" err))
      | (filPowerLocked, none) => (filMarketLocked + filPowerLocked, none)

/-- The struct `MarketDeal`. -/
structure MarketDeal where
  Proposal : DealProposal
  State : DealState
  deriving DecidableEq, Repr

/-- `View.StateMarketStorageDeal`; the nil pointer is `none`. -/
def View.StateMarketStorageDeal (v : View) (dealID : Nat) : Option MarketDeal × Option Err :=
  match v.loadMarketActor with
  | Except.error err => (none, some err)
  | Except.ok state =>
    match state.Proposals with
    | Except.error err => (none, some err)
    | Except.ok dealProposals =>
      match dealProposals.Get dealID with
      | Except.error err => (none, some err)
      | Except.ok none => (none, some (Err.new "deal proposal not found"))
      | Except.ok (some dealProposal) =>
        match state.States with
        | Except.error err => (none, some err)
        | Except.ok dealStates =>
          match dealStates.Get dealID with
          | Except.error err => (none, some err)
          | Except.ok none => (none, some (Err.new "deal state not found"))
          | Except.ok (some dealState) =>
            (some { Proposal := dealProposal, State := dealState }, none)

/-- `View.ResolveToKeyAddr`. The error of `LoadActor` is replaced, not
wrapped. -/
def View.ResolveToKeyAddr (v : View) (address : Address) : Address × Option Err :=
  if address.Protocol = Protocol.BLS ∨ address.Protocol = Protocol.SECP256K1 then
    (address, none)
  else
    match v.LoadActor address with
    | Except.error _ =>
      (Address.Undef, some (Err.errorfAddr "failed to find actor: %s" address))
    | Except.ok act =>
      if act.Code ≠ AccountActorCodeID then
        (Address.Undef,
          some (Err.errorfAddr "address %s was not for an account actor" address))
      else
        match v.ipldStore.accountLoad act with
        | Except.error err =>
          (Address.Undef,
            some (Err.wrapAddr "failed to get account actor state for %s: %w" address err))
        | Except.ok aast => aast.PubkeyAddress

/-- `View.MinerExists`. -/
def View.MinerExists (v : View) (maddr : Address) : Bool × Option Err :=
  match v.loadMinerActor maddr with
  | Except.ok _ => (true, none)
  | Except.error err =>
    if err = Err.ErrNotFound then (false, none) else (false, some err)

/-- The outcome of a Go call that can dereference a nil pointer: it returns
its results, or it panics and returns nothing. -/
inductive Outcome (α : Type) where
  | returned (results : α)
  | panic
  deriving DecidableEq, Repr

/-- `View.MinerInfo`: on success the pointer to the info, never nil. -/
def View.MinerInfo (v : View) (maddr : Address) : Option MinerInfo × Option Err :=
  match v.loadMinerActor maddr with
  | Except.error err => (none, some err)
  | Except.ok minerState =>
    match minerState.Info with
    | Except.error err => (none, some err)
    | Except.ok minerInfo => (some minerInfo, none)

/-- `View.MinerPeerID`: `*minerInfo.PeerId` dereferences the pointer
`PeerId` without a nil check. -/
def View.MinerPeerID (v : View) (maddr : Address) : Outcome (String × Option Err) :=
  match v.MinerInfo maddr with
  | (_, some err) => Outcome.returned ("", some err)
  | (none, none) => Outcome.panic
  | (some minerInfo, none) =>
    match minerInfo.PeerId with
    | none => Outcome.panic
    | some peerId => Outcome.returned (peerId, none)

/-- `View.MinerGetSector`: the results are the record, the found flag and
the error. -/
def View.MinerGetSector (v : View) (maddr : Address) (sectorNum : Nat) :
    Option SectorOnChainInfo × Bool × Option Err :=
  match v.loadMinerActor maddr with
  | Except.error err => (none, false, some err)
  | Except.ok minerState =>
    match minerState.GetSector sectorNum with
    | (_, some err) => (none, false, some err)
    | (info, none) => (info, true, none)

/-- `View.MinerGetPrecommittedSector`. -/
def View.MinerGetPrecommittedSector (v : View) (maddr : Address) (sectorNum : Nat) :
    Option SectorPreCommitOnChainInfo × Bool × Option Err :=
  match v.loadMinerActor maddr with
  | Except.error err => (none, false, some err)
  | Except.ok minerState =>
    match minerState.GetPrecommittedSector sectorNum with
    | (_, some err) => (none, false, some err)
    | (info, none) => (info, true, none)

/-- The closure that `MinerSectorsForEach` passes to `sectors.ForEach`: it
calls the visitor `f` with four fields of the record just decoded. -/
def MinerSectorsForEach.visit {σ : Type}
    (f : σ → Nat → Cid → Int → List Nat → σ × Option Err) (s : σ) (_idx : Nat)
    (info : SectorOnChainInfo) : σ × Option Err :=
  f s info.SectorNumber info.SealedCID info.SealProof info.DealIDs

/-- `View.MinerSectorsForEach`. The visitor `f` takes and returns the state
`s` its Go closure acts on; the state is returned next to the error. The
`switch` has the cases 0 and 2 and no default. -/
def View.MinerSectorsForEach {σ : Type} (v : View) (maddr : Address)
    (f : σ → Nat → Cid → Int → List Nat → σ × Option Err) (s : σ) : σ × Option Err :=
  match v.loadMinerActor maddr with
  | Except.error err => (s, some err)
  | Except.ok minerState =>
    match minerState.SectorArray with
    | Except.error err => (s, some err)
    | Except.ok sectors =>
      let version := v.ipldStore.specactorsVersion v.networkVersion
      if version = 0 then
        match sectors.ForEach SectorRecord.miner0 (MinerSectorsForEach.visit f) s with
        | (s', some err) => (s', some err)
        | (s', none) => (s', none)
      else if version = 2 then
        match sectors.ForEach SectorRecord.miner2 (MinerSectorsForEach.visit f) s with
        | (s', some err) => (s', some err)
        | (s', none) => (s', none)
      else (s, none)

/-! ## Specification-side predicates -/

/-- One call of the visitor, on the sector number, sealed CID, seal proof
and deal IDs of a record. -/
def callOn {σ : Type} (f : σ → Nat → Cid → Int → List Nat → σ × Option Err) (s : σ)
    (info : SectorOnChainInfo) : σ × Option Err :=
  f s info.SectorNumber info.SealedCID info.SealProof info.DealIDs

/-- The traversal the spec asks of a bulk iteration: the visitor is called
on the records in order, the first error of the visitor stops the traversal
and is the result. -/
def visitInOrder {σ : Type} (f : σ → Nat → Cid → Int → List Nat → σ × Option Err) :
    List SectorOnChainInfo → σ → σ × Option Err
  | [], s => (s, none)
  | info :: rest, s =>
    match callOn f s info with
    | (s', some err) => (s', some err)
    | (s', none) => visitInOrder f rest s'

/-- The state of the visitor after it was called, without failing, on the
records in order. -/
def visitedState {σ : Type} (f : σ → Nat → Cid → Int → List Nat → σ × Option Err)
    (infos : List SectorOnChainInfo) (s : σ) : σ :=
  infos.foldl (fun acc info => (callOn f acc info).1) s

/-- A visitor that records the arguments of each call and never fails. -/
def logVisitor (log : List SectorOnChainInfo) (n : Nat) (sealed : Cid) (proof : Int)
    (deals : List Nat) : List SectorOnChainInfo × Option Err :=
  (log ++ [{ SectorNumber := n, SealedCID := sealed, SealProof := proof, DealIDs := deals }], none)

/-- A visitor that records the arguments of each call and fails, with the
error `external 20`, on the sector with the given number. -/
def failingVisitor (bad : Nat) (log : List SectorOnChainInfo) (n : Nat) (sealed : Cid)
    (proof : Int) (deals : List Nat) : List SectorOnChainInfo × Option Err :=
  (log ++ [{ SectorNumber := n, SealedCID := sealed, SealProof := proof, DealIDs := deals }],
    if n = bad then some (Err.external 20) else none)

/-- A partition that decodes: its all-sectors and faulty-sectors bitfields
read without error as the sets `p.1` and `p.2`. -/
def Partition.decoded (p : Finset Nat × Finset Nat) : Partition :=
  { AllSectors := Except.ok (BitField.wellFormed p.1)
    FaultySectors := Except.ok (BitField.wellFormed p.2) }

/-- A deadline that decodes: its partitions array opens and every slot
decodes; `ps` lists the partitions in ascending index. -/
def Deadline.decoded (ps : List (Finset Nat × Finset Nat)) : Deadline :=
  { partitions := Except.ok (ps.map fun p => Except.ok (Partition.decoded p)) }

/-- The deadlines of a miner all of whose deadlines and partitions decode;
`pss` lists, in ascending deadline index, the partitions of each deadline. -/
def decodedDeadlines (pss : List (List (Finset Nat × Finset Nat))) :
    Except Err (List (Except Err Deadline)) :=
  Except.ok (pss.map fun ps => Except.ok (Deadline.decoded ps))

/-- Reading the all-sectors or the faulty-sectors of the partition fails,
or their set difference fails. -/
def Partition.fails (part : Partition) : Bool :=
  match part.AllSectors, part.FaultySectors with
  | Except.error _, _ => true
  | Except.ok _, Except.error _ => true
  | Except.ok a, Except.ok f =>
    match SubtractBitField a f with
    | Except.error _ => true
    | Except.ok _ => false

/-- A slot of a sequence fails: it does not decode, or its element fails. -/
def slotFails {α : Type} (fails : α → Bool) : Except Err α → Bool
  | Except.error _ => true
  | Except.ok a => fails a

/-- The partitions of the deadline do not open, or some partition slot
fails. -/
def Deadline.fails (dl : Deadline) : Bool :=
  match dl.partitions with
  | Except.error _ => true
  | Except.ok ps => ps.any (slotFails Partition.fails)

/-- The deadlines of the miner do not load, or some deadline slot fails. -/
def MinerState.fails (st : MinerState) : Bool :=
  match st.deadlines with
  | Except.error _ => true
  | Except.ok dls => dls.any (slotFails Deadline.fails)

/-! ## Fixtures -/

/-- A store in which every read fails. -/
def Fixture.failingStore : IpldStore :=
  { specactorsVersion := fun nv => nv
    AsMap := fun _ _ => Except.error (Err.external 1)
    initLoad := fun _ => Except.error (Err.external 2)
    accountLoad := fun _ => Except.error (Err.external 3)
    minerLoad := fun _ => Except.error (Err.external 4)
    marketLoad := fun _ => Except.error (Err.external 5)
    powerLoad := fun _ => Except.error (Err.external 6) }

/-- An actor record with the given code identity. -/
def Fixture.actor (code : Cid) : Actor :=
  { Code := code, Head := "head", CallSeqNum := 0, Balance := 0 }

/-- A top-level mapping holding one record, under the given address. -/
def Fixture.singleton (a : Address) (act : Actor) : AdtMap :=
  { Get := fun k =>
      if k = a then { found := true, err := none, out := act }
      else { found := false, err := none, out := Fixture.actor "" } }

/-- The sector record with the given number. -/
def Fixture.sector (n : Nat) : SectorOnChainInfo :=
  { SectorNumber := n, SealedCID := "sealed", SealProof := 3, DealIDs := [n, n + 100] }

/-- A stored sector written with the schema of the given actors version: it
unmarshals into the record of that version and fails to unmarshal into the
other one. -/
def Fixture.storedSector (schema n : Nat) : SectorSlot :=
  if schema = 0 then { as0 := Except.ok (Fixture.sector n), as2 := Except.error (Err.external 11) }
  else { as0 := Except.error (Err.external 10), as2 := Except.ok (Fixture.sector n) }

/-- The info of the miner of the fixtures, with the given peer identifier. -/
def Fixture.minerInfo (peerId : Option String) : MinerInfo :=
  { Owner := Address.newID 100, Worker := Address.newID 101, PeerId := peerId,
    SealProofType := 3, SectorSize := 2048, WindowPoStPartitionSectors := 2 }

/-- A miner state of the given schema version holding the sectors 1, 2 and
3, stored with that schema; a sector lookup finds these and reports any
other number as absent, with no record and no error. -/
def Fixture.sectorMiner (schema : Nat) : MinerState :=
  { actorsVersion := schema
    Info := Except.ok (Fixture.minerInfo (some "peer"))
    SectorArray := Except.ok
      { slots := [Fixture.storedSector schema 1, Fixture.storedSector schema 2,
          Fixture.storedSector schema 3] }
    GetSector := fun n =>
      if n = 1 ∨ n = 2 ∨ n = 3 then (some (Fixture.sector n), none) else (none, none)
    GetPrecommittedSector := fun _ => (none, none)
    deadlines := Except.ok [] }

/-- The address of the miner of the fixtures. -/
def Fixture.minerAddr : Address := Address.newID 1000

/-- A view over a state holding one miner actor, whose state is `st`. -/
def Fixture.minerView (st : MinerState) : View :=
  { ipldStore :=
      { Fixture.failingStore with
        AsMap := fun _ _ =>
          Except.ok (Fixture.singleton Fixture.minerAddr (Fixture.actor "fil/1/storageminer"))
        minerLoad := fun _ => Except.ok st }
    root := "root"
    networkVersion := 0 }

/-- The partitions, by deadline, of a miner with three deadlines: the first
has the partition with all-sectors `{1,2,3,4}` and faulty-sectors `{2,4}`,
the second has none, the third has two more. -/
def Fixture.partitions : List (List (Finset Nat × Finset Nat)) :=
  [[({1, 2, 3, 4}, {2, 4})], [], [({5, 6}, ∅), ({7}, {7})]]

/-- A partition whose faulty-sectors bitfield is malformed. -/
def Fixture.brokenPartition : Partition :=
  { AllSectors := Except.ok (BitField.wellFormed {8, 9})
    FaultySectors := Except.ok (BitField.malformed (Err.external 7)) }

/-- A deadline whose second partition is the broken one. -/
def Fixture.brokenDeadline : Deadline :=
  { partitions :=
      Except.ok [Except.ok (Partition.decoded ({5, 6}, ∅)), Except.ok Fixture.brokenPartition] }

/-- The miner whose deadlines decode to `Fixture.partitions`. -/
def Fixture.decodedMiner : MinerState :=
  { Fixture.sectorMiner 0 with deadlines := decodedDeadlines Fixture.partitions }

/-- A miner whose second deadline holds a partition with a malformed
faulty-sectors bitfield, after a first deadline that decodes. -/
def Fixture.brokenMiner : MinerState :=
  { Fixture.sectorMiner 0 with
    deadlines :=
      Except.ok [Except.ok (Deadline.decoded [({1, 2, 3, 4}, {2, 4})]),
        Except.ok Fixture.brokenDeadline] }

/-- A deal proposal of the fixtures. -/
def Fixture.proposal : DealProposal :=
  { PieceCID := "piece", PieceSize := 2048, Client := Address.newID 100,
    Provider := Address.newID 1000 }

/-- A deal state of the fixtures. -/
def Fixture.dealState : DealState :=
  { SectorStartEpoch := 10, LastUpdatedEpoch := 20, SlashEpoch := -1 }

/-- Deal proposals holding the deals 7 and 8. -/
def Fixture.proposals : DealProposals :=
  { Get := fun id => if id = 7 ∨ id = 8 then Except.ok (some Fixture.proposal) else Except.ok none }

/-- Deal states holding the deal 7 only. -/
def Fixture.states : DealStates :=
  { Get := fun id => if id = 7 then Except.ok (some Fixture.dealState) else Except.ok none }

/-- A market state over the fixture deals, with the given result of
`TotalLocked`. -/
def Fixture.market (total : Int × Option Err) : MarketState :=
  { Proposals := Except.ok Fixture.proposals
    States := Except.ok Fixture.states
    TotalLocked := total }

/-- A public-key address the init actor of the fixtures knows. -/
def Fixture.knownKey : Address := ⟨Protocol.BLS, [1, 2, 3]⟩

/-- A public-key address the init actor of the fixtures does not know. -/
def Fixture.unknownKey : Address := ⟨Protocol.SECP256K1, [9, 9, 9]⟩

/-- An init state that maps `knownKey` to the ID address 100 and reports
every other key as not found, with the undefined address. -/
def Fixture.initState : InitState :=
  { NetworkName := ("fixture", none)
    ResolveAddress := fun a =>
      if a = Fixture.knownKey then { addr := Address.newID 100, found := true, err := none }
      else { addr := Address.Undef, found := false, err := none } }

/-- An address at which the lookup in the top-level mapping of the fixtures
fails. -/
def Fixture.corruptAddr : Address := Address.newID 666

/-- A top-level mapping with the init, power, market, an account and a miner
actor; the lookup fails at `corruptAddr`, with `found = false` next to the
error. -/
def Fixture.stateMap : AdtMap :=
  { Get := fun k =>
      if k = InitActorAddr then { found := true, err := none, out := Fixture.actor "fil/1/init" }
      else if k = StoragePowerActorAddr then
        { found := true, err := none, out := Fixture.actor "fil/1/storagepower" }
      else if k = StorageMarketActorAddr then
        { found := true, err := none, out := Fixture.actor "fil/1/storagemarket" }
      else if k = Address.newID 100 then
        { found := true, err := none, out := Fixture.actor "fil/1/account" }
      else if k = Fixture.minerAddr then
        { found := true, err := none, out := Fixture.actor "fil/1/storageminer" }
      else if k = Fixture.corruptAddr then
        { found := false, err := some (Err.external 9), out := Fixture.actor "" }
      else { found := false, err := none, out := Fixture.actor "" } }

/-- A view over `stateMap` whose actors all load, with the given market and
power states. -/
def Fixture.view (market : MarketState) (power : PowerState) : View :=
  { ipldStore :=
      { specactorsVersion := fun nv => nv
        AsMap := fun _ _ => Except.ok Fixture.stateMap
        initLoad := fun _ => Except.ok Fixture.initState
        accountLoad := fun _ => Except.ok { PubkeyAddress := (Fixture.knownKey, none) }
        minerLoad := fun _ => Except.ok Fixture.decodedMiner
        marketLoad := fun _ => Except.ok market
        powerLoad := fun _ => Except.ok power }
    root := "root"
    networkVersion := 0 }

/-- A state tree holding the market actor. -/
def Fixture.tree : Tree :=
  { GetActor := fun k =>
      if k = StorageMarketActorAddr then GetActorResult.found (Fixture.actor "fil/1/storagemarket")
      else GetActorResult.notFound }

/-- A view over a store in which every read fails. -/
def Fixture.failingView : View :=
  { ipldStore := Fixture.failingStore, root := "root", networkVersion := 0 }

/-- The view over a state holding the miner `st`, with the given network
version; the actors version of the fixtures is the network version. -/
def Fixture.versionView (networkVersion : Nat) (st : MinerState) : View :=
  { Fixture.minerView st with networkVersion := networkVersion }

/-- The view over a state holding the miner `st`, with the given network
version, whose `adt.AsMap` opens the state mapping for the actors versions 0
and 2 and fails for every other version. -/
def Fixture.strictView (networkVersion : Nat) (st : MinerState) : View :=
  { ipldStore :=
      { Fixture.failingStore with
        AsMap := fun _ version =>
          if version = 0 ∨ version = 2 then
            Except.ok (Fixture.singleton Fixture.minerAddr (Fixture.actor "fil/1/storageminer"))
          else Except.error (Err.external 12)
        minerLoad := fun _ => Except.ok st }
    root := "root"
    networkVersion := networkVersion }

/-- The three sector records of `Fixture.sectorMiner`. -/
def Fixture.sectors : List SectorOnChainInfo :=
  [Fixture.sector 1, Fixture.sector 2, Fixture.sector 3]

/-! ## Traversal lemmas -/

/-- Flattening the singletons of the images gives the images. -/
theorem flatten_map_single {α β : Type} (g : α → β) (xs : List α) :
    (xs.map fun x => [g x]).flatten = xs.map g := by
  induction xs with
  | nil => rfl
  | cons x rest ih => simp [ih]

/-- A traversal whose slots all decode, to the elements `f x`, and whose
visitor appends `g x` to the accumulated list at `f x`, appends the images
in order. -/
theorem Sequence.ForEachFrom_append {α β γ : Type}
    (cb : List β → Nat → α → List β × Option Err) (f : γ → α) (g : γ → List β)
    (hcb : ∀ acc i x, cb acc i (f x) = (acc ++ g x, none)) (xs : List γ) :
    ∀ (i : Nat) (acc : List β),
      Sequence.ForEachFrom cb i (xs.map fun x => Except.ok (f x)) acc
        = (acc ++ (xs.map g).flatten, none) := by
  induction xs with
  | nil => intro i acc; simp [Sequence.ForEachFrom]
  | cons a rest ih =>
    intro i acc
    simp [Sequence.ForEachFrom, hcb, ih]

/-- A traversal with a failing slot ends in an error, when the visitor
fails on every failing element whatever it has accumulated. -/
theorem Sequence.ForEachFrom_fails {α σ : Type} (cb : σ → Nat → α → σ × Option Err)
    (fails : α → Bool) (hcb : ∀ s i a, fails a = true → (cb s i a).2 ≠ none)
    (xs : List (Except Err α)) :
    ∀ (i : Nat) (s : σ), xs.any (slotFails fails) = true →
      (Sequence.ForEachFrom cb i xs s).2 ≠ none := by
  induction xs with
  | nil => intro i s h; simp at h
  | cons x rest ih =>
    intro i s h
    cases x with
    | error e => simp [Sequence.ForEachFrom]
    | ok a =>
      simp only [Sequence.ForEachFrom]
      rcases hc : cb s i a with ⟨s', _ | e⟩
      · simp only
        apply ih
        simp only [List.any_cons, slotFails, Bool.or_eq_true] at h
        rcases h with h | h
        · exact absurd (by rw [hc]) (hcb s i a h)
        · exact h
      · simp

/-- The partition visitor on a partition that decodes appends the set
difference. -/
theorem GetPartsProving.visitPartition_decoded (acc : List BitField) (i : Nat)
    (p : Finset Nat × Finset Nat) :
    GetPartsProving.visitPartition acc i (Partition.decoded p)
      = (acc ++ [BitField.wellFormed (p.1 \ p.2)], none) := by
  simp [GetPartsProving.visitPartition, Partition.decoded, SubtractBitField]

/-- The deadline visitor on a deadline that decodes appends the set
differences of its partitions in order. -/
theorem GetPartsProving.visitDeadline_decoded (acc : List BitField) (i : Nat)
    (ps : List (Finset Nat × Finset Nat)) :
    GetPartsProving.visitDeadline acc i (Deadline.decoded ps)
      = (acc ++ ps.map (fun p => BitField.wellFormed (p.1 \ p.2)), none) := by
  have h := Sequence.ForEachFrom_append GetPartsProving.visitPartition Partition.decoded
    (fun p => [BitField.wellFormed (p.1 \ p.2)])
    (fun acc i x => GetPartsProving.visitPartition_decoded acc i x) ps 0 acc
  simp only [GetPartsProving.visitDeadline, Deadline.ForEachPartition, Deadline.decoded]
  rw [h, flatten_map_single]

/-- The partition visitor fails on a failing partition. -/
theorem GetPartsProving.visitPartition_fails (acc : List BitField) (i : Nat) (part : Partition)
    (h : part.fails = true) : (GetPartsProving.visitPartition acc i part).2 ≠ none := by
  unfold Partition.fails at h
  unfold GetPartsProving.visitPartition
  cases ha : part.AllSectors with
  | error e => simp
  | ok a =>
    cases hf : part.FaultySectors with
    | error e => simp
    | ok f =>
      cases hs : SubtractBitField a f with
      | error e => simp [hs]
      | ok d => rw [ha, hf] at h; simp [hs] at h

/-- The deadline visitor fails on a failing deadline. -/
theorem GetPartsProving.visitDeadline_fails (acc : List BitField) (i : Nat) (dl : Deadline)
    (h : dl.fails = true) : (GetPartsProving.visitDeadline acc i dl).2 ≠ none := by
  unfold Deadline.fails at h
  unfold GetPartsProving.visitDeadline Deadline.ForEachPartition
  cases hp : dl.partitions with
  | error e => simp
  | ok ps =>
    rw [hp] at h
    have hne := Sequence.ForEachFrom_fails GetPartsProving.visitPartition Partition.fails
      GetPartsProving.visitPartition_fails ps 0 acc h
    rcases hr : Sequence.ForEachFrom GetPartsProving.visitPartition 0 ps acc with ⟨s', _ | e⟩
    · rw [hr] at hne; exact absurd rfl hne
    · simp [hr]

/-! ## Theorems -/

/-- C1. For every miner whose state loads and whose deadlines and
partitions all decode, `GetPartsProving` returns, with no error, one
bitfield per partition, the set difference of that partition's all-sectors
and faulty-sectors, listed by ascending deadline index and, within a
deadline, by ascending partition index; the length of the result is the
total number of partitions. -/
theorem GetPartsProving_all_minus_faulty (v : View) (maddr : Address) (st : MinerState)
    (pss : List (List (Finset Nat × Finset Nat)))
    (hload : v.loadMinerActor maddr = Except.ok st)
    (hdec : st.deadlines = decodedDeadlines pss) :
    v.GetPartsProving maddr
        = (pss.flatten.map (fun p => BitField.wellFormed (p.1 \ p.2)), none)
      ∧ (v.GetPartsProving maddr).1.length = (pss.map List.length).sum := by
  have h := Sequence.ForEachFrom_append GetPartsProving.visitDeadline Deadline.decoded
    (fun ps => ps.map (fun p => BitField.wellFormed (p.1 \ p.2)))
    (fun acc i x => GetPartsProving.visitDeadline_decoded acc i x) pss 0 []
  have hres : v.GetPartsProving maddr
      = (pss.flatten.map (fun p => BitField.wellFormed (p.1 \ p.2)), none) := by
    simp only [View.GetPartsProving, hload, MinerState.ForEachDeadline, hdec, decodedDeadlines]
    rw [h]
    simp [List.map_flatten]
  refine ⟨hres, ?_⟩
  rw [hres]
  simp [List.length_flatten, Function.comp_def]

/-- C1, at a miner with three deadlines: the partition with all-sectors
`{1,2,3,4}` and faulty-sectors `{2,4}` contributes `{1,3}`, and the three
partitions give three bitfields in deadline and partition order. -/
theorem GetPartsProving_all_minus_faulty_witness :
    (Fixture.minerView Fixture.decodedMiner).GetPartsProving Fixture.minerAddr
      = ([BitField.wellFormed {1, 3}, BitField.wellFormed {5, 6}, BitField.wellFormed ∅], none) := by
  have h := (GetPartsProving_all_minus_faulty (Fixture.minerView Fixture.decodedMiner)
    Fixture.minerAddr Fixture.decodedMiner Fixture.partitions rfl rfl).1
  rw [h]
  decide

/-- C2. `GetPartsProving` never returns partial results: whenever it
returns an error its result sequence is nil, and it does return an error
(with the nil sequence) if the miner fails to load or if, in any deadline
and any partition, reading the all-sectors or the faulty-sectors or taking
their set difference fails, whatever was computed before. -/
theorem GetPartsProving_no_partial_results (v : View) (maddr : Address) :
    ((v.GetPartsProving maddr).2 ≠ none → (v.GetPartsProving maddr).1 = []) ∧
    (((∃ e, v.loadMinerActor maddr = Except.error e) ∨
        (∃ st, v.loadMinerActor maddr = Except.ok st ∧ st.fails = true)) →
      ∃ e, v.GetPartsProving maddr = ([], some e)) := by
  constructor
  · unfold View.GetPartsProving
    cases hl : v.loadMinerActor maddr with
    | error e => simp
    | ok st =>
      rcases hr : st.ForEachDeadline GetPartsProving.visitDeadline [] with ⟨parts, _ | e⟩
      · simp [hr]
      · simp [hr]
  · rintro (⟨e, he⟩ | ⟨st, hst, hf⟩)
    · exact ⟨e, by simp [View.GetPartsProving, he]⟩
    · have hne : (st.ForEachDeadline GetPartsProving.visitDeadline []).2 ≠ none := by
        unfold MinerState.fails at hf
        unfold MinerState.ForEachDeadline
        cases hd : st.deadlines with
        | error e => simp
        | ok dls =>
          rw [hd] at hf
          exact Sequence.ForEachFrom_fails GetPartsProving.visitDeadline Deadline.fails
            GetPartsProving.visitDeadline_fails dls 0 [] hf
      rcases hr : st.ForEachDeadline GetPartsProving.visitDeadline [] with ⟨parts, _ | e⟩
      · rw [hr] at hne; exact absurd rfl hne
      · exact ⟨e, by simp [View.GetPartsProving, hst, hr]⟩

/-- C2, at a miner whose first deadline decodes and whose second deadline
has, after a partition that decodes, a partition with a malformed
faulty-sectors bitfield: the call fails and returns the nil sequence. -/
theorem GetPartsProving_no_partial_results_witness :
    Fixture.brokenMiner.fails = true ∧
    ∃ e, (Fixture.minerView Fixture.brokenMiner).GetPartsProving Fixture.minerAddr
      = ([], some e) :=
  ⟨by decide,
   (GetPartsProving_no_partial_results (Fixture.minerView Fixture.brokenMiner)
      Fixture.minerAddr).2 (Or.inr ⟨Fixture.brokenMiner, rfl, by decide⟩)⟩

/-- C3. When the market actor is found in the tree, its state loads and
its total-locked query succeeds with `m`, and the power actor loads and its
total-locked query succeeds with `p`, `GetFilLocked` returns `m + p` and no
error. -/
theorem GetFilLocked_sum (v : View) (st : Tree) (mactor : Actor) (mst : MarketState)
    (powerState : PowerState) (m p : Int)
    (hact : st.GetActor StorageMarketActorAddr = GetActorResult.found mactor)
    (hmload : v.ipldStore.marketLoad mactor = Except.ok mst)
    (hm : mst.TotalLocked = (m, none))
    (hpload : v.loadPowerActor = Except.ok powerState)
    (hp : powerState.TotalLocked = (p, none)) :
    v.GetFilLocked st = (m + p, none) := by
  simp [View.GetFilLocked, getFilMarketLocked, hact, hmload, hm, hpload, hp]

/-- C3, at a market with 70 locked and a power actor with 30 locked. -/
theorem GetFilLocked_sum_witness :
    (Fixture.view (Fixture.market (70, none)) { TotalLocked := (30, none) }).GetFilLocked
      Fixture.tree = (100, none) :=
  GetFilLocked_sum (Fixture.view (Fixture.market (70, none)) { TotalLocked := (30, none) })
    Fixture.tree (Fixture.actor "fil/1/storagemarket") (Fixture.market (70, none))
    { TotalLocked := (30, none) } 70 30 rfl rfl rfl rfl rfl

/-- C4. `GetFilLocked` is all-or-nothing: whenever it returns an error the
amount is zero; and it returns an error with the zero amount when the market
actor is missing from the tree, when looking it up fails, when the market
state fails to load, when the market total-locked query fails, and, the
market step having succeeded with some amount `m`, when the power actor
fails to load or its total-locked query fails. -/
theorem GetFilLocked_all_or_nothing (v : View) (st : Tree) :
    ((v.GetFilLocked st).2 ≠ none → (v.GetFilLocked st).1 = 0) ∧
    (st.GetActor StorageMarketActorAddr = GetActorResult.notFound →
      v.GetFilLocked st = (0, some (Err.wrap "failed to get filMarketLocked: %w"
        (Err.wrapNil "failed to load market actor: %w")))) ∧
    (∀ f e, st.GetActor StorageMarketActorAddr = GetActorResult.failed f e →
      v.GetFilLocked st = (0, some (Err.wrap "failed to get filMarketLocked: %w"
        (Err.wrap "failed to load market actor: %w" e)))) ∧
    (∀ mactor e, st.GetActor StorageMarketActorAddr = GetActorResult.found mactor →
      v.ipldStore.marketLoad mactor = Except.error e →
      v.GetFilLocked st = (0, some (Err.wrap "failed to get filMarketLocked: %w"
        (Err.wrap "failed to load market state: %w" e)))) ∧
    (∀ mactor mst x e, st.GetActor StorageMarketActorAddr = GetActorResult.found mactor →
      v.ipldStore.marketLoad mactor = Except.ok mst → mst.TotalLocked = (x, some e) →
      v.GetFilLocked st = (0, some (Err.wrap "failed to get filMarketLocked: %w" e))) ∧
    (∀ m e, getFilMarketLocked v.ipldStore st = (m, none) →
      v.loadPowerActor = Except.error e →
      v.GetFilLocked st = (0, some (Err.wrap "failed to get filPowerLocked: %w" e))) ∧
    (∀ m powerState x e, getFilMarketLocked v.ipldStore st = (m, none) →
      v.loadPowerActor = Except.ok powerState → powerState.TotalLocked = (x, some e) →
      v.GetFilLocked st = (0, some (Err.wrap "failed to get filPowerLocked: %w" e))) := by
  refine ⟨?_, ?_, ?_, ?_, ?_, ?_, ?_⟩
  · unfold View.GetFilLocked
    rcases hm : getFilMarketLocked v.ipldStore st with ⟨m, _ | e⟩
    · cases hp : v.loadPowerActor with
      | error e => simp
      | ok powerState =>
        rcases ht : powerState.TotalLocked with ⟨p, _ | e⟩
        · simp [ht]
        · simp [ht]
    · simp
  · intro h
    simp [View.GetFilLocked, getFilMarketLocked, h, Err.errorfW]
  · intro f e h
    simp [View.GetFilLocked, getFilMarketLocked, h, Err.errorfW]
  · intro mactor e h hl
    simp [View.GetFilLocked, getFilMarketLocked, h, hl]
  · intro mactor mst x e h hl ht
    simp [View.GetFilLocked, getFilMarketLocked, h, hl, ht]
  · intro m e hm hp
    simp [View.GetFilLocked, hm, hp]
  · intro m powerState x e hm hp ht
    simp [View.GetFilLocked, hm, hp, ht]

/-- C4, at a market whose total-locked query succeeds with 70 and a power
actor whose total-locked query fails: the result is an error with the zero
amount, not 70. -/
theorem GetFilLocked_all_or_nothing_witness :
    (Fixture.view (Fixture.market (70, none))
        { TotalLocked := (30, some (Err.external 8)) }).GetFilLocked Fixture.tree
      = (0, some (Err.wrap "failed to get filPowerLocked: %w" (Err.external 8))) :=
  (GetFilLocked_all_or_nothing
    (Fixture.view (Fixture.market (70, none)) { TotalLocked := (30, some (Err.external 8)) })
    Fixture.tree).2.2.2.2.2.2 70 { TotalLocked := (30, some (Err.external 8)) } 30
      (Err.external 8) rfl rfl rfl

/-- C5. `StateMarketStorageDeal` returns a deal exactly when the market
actor loads and both the proposals and the states container hold an entry
for the identifier, and the deal is then made of those two entries; a deal
is never returned together with an error; when the proposals container has
no entry, and when it has one but the states container has none, the result
is nil with a not-found error. -/
theorem StateMarketStorageDeal_complete (v : View) (dealID : Nat) :
    (∀ d, (v.StateMarketStorageDeal dealID).1 = some d ↔
      ∃ state dealProposals dealStates, v.loadMarketActor = Except.ok state ∧
        state.Proposals = Except.ok dealProposals ∧
        dealProposals.Get dealID = Except.ok (some d.Proposal) ∧
        state.States = Except.ok dealStates ∧
        dealStates.Get dealID = Except.ok (some d.State)) ∧
    ((v.StateMarketStorageDeal dealID).1 ≠ none → (v.StateMarketStorageDeal dealID).2 = none) ∧
    (∀ state dealProposals, v.loadMarketActor = Except.ok state →
      state.Proposals = Except.ok dealProposals → dealProposals.Get dealID = Except.ok none →
      v.StateMarketStorageDeal dealID = (none, some (Err.new "deal proposal not found"))) ∧
    (∀ state dealProposals dealStates p, v.loadMarketActor = Except.ok state →
      state.Proposals = Except.ok dealProposals →
      dealProposals.Get dealID = Except.ok (some p) →
      state.States = Except.ok dealStates → dealStates.Get dealID = Except.ok none →
      v.StateMarketStorageDeal dealID = (none, some (Err.new "deal state not found"))) := by
  refine ⟨?_, ?_, ?_, ?_⟩
  · intro d
    cases hl : v.loadMarketActor with
    | error e => simp [View.StateMarketStorageDeal, hl]
    | ok state =>
      cases hps : state.Proposals with
      | error e => simp [View.StateMarketStorageDeal, hl, hps]
      | ok dealProposals =>
        cases hp : dealProposals.Get dealID with
        | error e => simp [View.StateMarketStorageDeal, hl, hps, hp]
        | ok op =>
          cases op with
          | none => simp [View.StateMarketStorageDeal, hl, hps, hp]
          | some p =>
            cases hss : state.States with
            | error e => simp [View.StateMarketStorageDeal, hl, hps, hp, hss]
            | ok dealStates =>
              cases hs : dealStates.Get dealID with
              | error e => simp [View.StateMarketStorageDeal, hl, hps, hp, hss, hs]
              | ok os =>
                cases os with
                | none => simp [View.StateMarketStorageDeal, hl, hps, hp, hss, hs]
                | some s =>
                  cases d with
                  | mk dp ds =>
                    simp [View.StateMarketStorageDeal, hl, hps, hp, hss, hs]
  · cases hl : v.loadMarketActor with
    | error e => simp [View.StateMarketStorageDeal, hl]
    | ok state =>
      cases hps : state.Proposals with
      | error e => simp [View.StateMarketStorageDeal, hl, hps]
      | ok dealProposals =>
        cases hp : dealProposals.Get dealID with
        | error e => simp [View.StateMarketStorageDeal, hl, hps, hp]
        | ok op =>
          cases op with
          | none => simp [View.StateMarketStorageDeal, hl, hps, hp]
          | some p =>
            cases hss : state.States with
            | error e => simp [View.StateMarketStorageDeal, hl, hps, hp, hss]
            | ok dealStates =>
              cases hs : dealStates.Get dealID with
              | error e => simp [View.StateMarketStorageDeal, hl, hps, hp, hss, hs]
              | ok os =>
                cases os with
                | none => simp [View.StateMarketStorageDeal, hl, hps, hp, hss, hs]
                | some s => simp [View.StateMarketStorageDeal, hl, hps, hp, hss, hs]
  · intro state dealProposals hl hps hp
    simp [View.StateMarketStorageDeal, hl, hps, hp]
  · intro state dealProposals dealStates p hl hps hp hss hs
    simp [View.StateMarketStorageDeal, hl, hps, hp, hss, hs]

/-- C5, at a market whose proposals hold the deals 7 and 8 and whose states
hold the deal 7 only: deal 8 gives nil and the not-found error, not a deal
with the proposal alone, and deal 7 gives the deal made of both entries. -/
theorem StateMarketStorageDeal_complete_witness :
    (Fixture.view (Fixture.market (0, none)) { TotalLocked := (0, none) }).StateMarketStorageDeal 8
        = (none, some (Err.new "deal state not found")) ∧
    ((Fixture.view (Fixture.market (0, none)) { TotalLocked := (0, none) }).StateMarketStorageDeal
        7).1 = some { Proposal := Fixture.proposal, State := Fixture.dealState } :=
  ⟨(StateMarketStorageDeal_complete
      (Fixture.view (Fixture.market (0, none)) { TotalLocked := (0, none) }) 8).2.2.2
      (Fixture.market (0, none)) Fixture.proposals Fixture.states Fixture.proposal
      rfl rfl rfl rfl rfl,
   ((StateMarketStorageDeal_complete
      (Fixture.view (Fixture.market (0, none)) { TotalLocked := (0, none) }) 7).1
      { Proposal := Fixture.proposal, State := Fixture.dealState }).2
      ⟨Fixture.market (0, none), Fixture.proposals, Fixture.states, rfl, rfl, rfl, rfl, rfl⟩⟩

/-- C6. For every address already in public-key form (SECP256K1 or BLS),
`ResolveToKeyAddr` returns the address unchanged and no error, for every
view: whatever the state root, the network version and the store are, a
store in which every read fails included. -/
theorem ResolveToKeyAddr_key_address (v : View) (a : Address)
    (h : a.Protocol = Protocol.SECP256K1 ∨ a.Protocol = Protocol.BLS) :
    v.ResolveToKeyAddr a = (a, none) := by
  unfold View.ResolveToKeyAddr
  rw [if_pos (Or.symm h)]

/-- C6, at a view over a store in which every read fails. -/
theorem ResolveToKeyAddr_key_address_witness :
    Fixture.failingView.loadActor Fixture.unknownKey = Except.error (Err.external 1) ∧
    Fixture.failingView.ResolveToKeyAddr Fixture.unknownKey = (Fixture.unknownKey, none) :=
  ⟨rfl, ResolveToKeyAddr_key_address Fixture.failingView Fixture.unknownKey (Or.inl rfl)⟩

/-- Replacing the account loader of the store does not change what
`LoadActor` returns. -/
theorem LoadActor_accountLoad (v : View) (f : Actor → Except Err AccountState) (a : Address) :
    View.LoadActor { v with ipldStore := { v.ipldStore with accountLoad := f } } a
      = v.LoadActor a := rfl

/-- C7. For an address not in public-key form whose actor record is found:
if the code identity is not the account actor's, `ResolveToKeyAddr` returns
the undefined address and the not-an-account-actor error, and does so
whatever the account loader of the store would do with the record (it is
not consulted); if the code identity is the account actor's and the account
state loads, it returns what that state's `PubkeyAddress` returns. -/
theorem ResolveToKeyAddr_account_only (v : View) (address : Address) (act : Actor)
    (hproto : address.Protocol ≠ Protocol.BLS ∧ address.Protocol ≠ Protocol.SECP256K1)
    (hact : v.LoadActor address = Except.ok act) :
    (act.Code ≠ AccountActorCodeID →
      ∀ f : Actor → Except Err AccountState,
        View.ResolveToKeyAddr { v with ipldStore := { v.ipldStore with accountLoad := f } } address
          = (Address.Undef,
              some (Err.errorfAddr "address %s was not for an account actor" address))) ∧
    (act.Code = AccountActorCodeID →
      ∀ aast, v.ipldStore.accountLoad act = Except.ok aast →
        v.ResolveToKeyAddr address = aast.PubkeyAddress) := by
  have hif : ¬ (address.Protocol = Protocol.BLS ∨ address.Protocol = Protocol.SECP256K1) := by
    rintro (h | h)
    · exact hproto.1 h
    · exact hproto.2 h
  constructor
  · intro hcode f
    unfold View.ResolveToKeyAddr
    rw [if_neg hif, LoadActor_accountLoad, hact]
    simp [hcode]
  · intro hcode aast hload
    unfold View.ResolveToKeyAddr
    rw [if_neg hif, hact]
    simp [hcode, hload]

/-- C7, at the miner actor of the fixtures (not an account actor) and at
the account actor with ID address 100. -/
theorem ResolveToKeyAddr_account_only_witness :
    (Fixture.view (Fixture.market (0, none)) { TotalLocked := (0, none) }).ResolveToKeyAddr
        Fixture.minerAddr
      = (Address.Undef,
          some (Err.errorfAddr "address %s was not for an account actor" Fixture.minerAddr)) ∧
    (Fixture.view (Fixture.market (0, none)) { TotalLocked := (0, none) }).ResolveToKeyAddr
        (Address.newID 100) = (Fixture.knownKey, none) :=
  ⟨(ResolveToKeyAddr_account_only
      (Fixture.view (Fixture.market (0, none)) { TotalLocked := (0, none) }) Fixture.minerAddr
      (Fixture.actor "fil/1/storageminer") (by decide) rfl).1 (by decide)
      (fun _ => Except.ok { PubkeyAddress := (Fixture.knownKey, none) }),
   (ResolveToKeyAddr_account_only
      (Fixture.view (Fixture.market (0, none)) { TotalLocked := (0, none) }) (Address.newID 100)
      (Fixture.actor "fil/1/account") (by decide) rfl).2 (by decide)
      { PubkeyAddress := (Fixture.knownKey, none) } rfl⟩

/-- C8. What the code does for an address not in identifier form: when the
init actor loads and its `ResolveAddress` returns no error,
`InitResolveAddress` returns the address of that result and no error,
whatever the found flag of the result says; a key reported as not found is
therefore answered with success, not with a not-found report. -/
theorem InitResolveAddress_ignores_found (v : View) (a : Address) (initState : InitState)
    (hproto : a.Protocol ≠ Protocol.ID)
    (hinit : v.loadInitActor = Except.ok initState)
    (herr : (initState.ResolveAddress a).err = none) :
    v.InitResolveAddress a = ((initState.ResolveAddress a).addr, none) := by
  unfold View.InitResolveAddress
  rw [if_neg hproto, hinit]
  simp [herr]

/-- C8, at a public-key address that the init actor reports as not found:
the call succeeds and carries the undefined address. -/
theorem InitResolveAddress_ignores_found_witness :
    (Fixture.initState.ResolveAddress Fixture.unknownKey).found = false ∧
    (Fixture.view (Fixture.market (0, none)) { TotalLocked := (0, none) }).InitResolveAddress
        Fixture.unknownKey = (Address.Undef, none) :=
  ⟨by decide,
   InitResolveAddress_ignores_found
     (Fixture.view (Fixture.market (0, none)) { TotalLocked := (0, none) }) Fixture.unknownKey
     Fixture.initState (by decide) rfl (by decide)⟩

/-- C9. Registry lookup round trip: when the top-level mapping opens, if
its lookup at the address finds the record `r` without error then
`LoadActor` returns exactly `r` and no error, and if its lookup finds no
entry, without error, then `LoadActor` returns `types.ErrNotFound` and no
record. -/
theorem LoadActor_round_trip (v : View) (a : Address) (tree : AdtMap)
    (htree : v.asMap v.root = Except.ok tree) :
    (∀ r, (tree.Get a).found = true → (tree.Get a).err = none → (tree.Get a).out = r →
      v.LoadActor a = Except.ok r) ∧
    ((tree.Get a).found = false → (tree.Get a).err = none →
      v.LoadActor a = Except.error Err.ErrNotFound) := by
  constructor
  · intro r hf he ho
    simp [View.LoadActor, View.loadActor, htree, hf, he, ho]
  · intro hf _
    simp [View.LoadActor, View.loadActor, htree, hf]

/-- C9, at the state mapping of the fixtures: the miner's address gives its
record, an address without entry gives `types.ErrNotFound`. -/
theorem LoadActor_round_trip_witness :
    (Fixture.view (Fixture.market (0, none)) { TotalLocked := (0, none) }).LoadActor
        Fixture.minerAddr = Except.ok (Fixture.actor "fil/1/storageminer") ∧
    (Fixture.view (Fixture.market (0, none)) { TotalLocked := (0, none) }).LoadActor
        (Address.newID 2000) = Except.error Err.ErrNotFound :=
  ⟨(LoadActor_round_trip (Fixture.view (Fixture.market (0, none)) { TotalLocked := (0, none) })
      Fixture.minerAddr Fixture.stateMap rfl).1 (Fixture.actor "fil/1/storageminer")
      (by decide) (by decide) (by decide),
   (LoadActor_round_trip (Fixture.view (Fixture.market (0, none)) { TotalLocked := (0, none) })
      (Address.newID 2000) Fixture.stateMap rfl).2 (by decide) (by decide)⟩

/-- C10. What the code does when the lookup in the top-level mapping fails:
if `Get` returns the error `e` together with `found = false`, `loadActor`
returns `types.ErrNotFound`, not `e`, and for an address in identifier form
`MinerExists` returns false and no error. -/
theorem loadActor_Get_error_as_not_found (v : View) (a : Address) (tree : AdtMap) (e : Err)
    (out : Actor)
    (htree : v.asMap v.root = Except.ok tree)
    (hget : tree.Get a = { found := false, err := some e, out := out }) :
    v.loadActor a = Except.error Err.ErrNotFound ∧
    (a.Protocol = Protocol.ID → v.MinerExists a = (false, none)) := by
  have hload : v.loadActor a = Except.error Err.ErrNotFound := by
    simp [View.loadActor, htree, hget]
  refine ⟨hload, ?_⟩
  intro hid
  simp [View.MinerExists, View.loadMinerActor, View.InitResolveAddress, hid, hload]

/-- C10, at an address where the lookup fails with an error other than
`types.ErrNotFound`. -/
theorem loadActor_Get_error_as_not_found_witness :
    (Fixture.stateMap.Get Fixture.corruptAddr).err = some (Err.external 9) ∧
    (Fixture.view (Fixture.market (0, none)) { TotalLocked := (0, none) }).loadActor
        Fixture.corruptAddr = Except.error Err.ErrNotFound ∧
    (Fixture.view (Fixture.market (0, none)) { TotalLocked := (0, none) }).MinerExists
        Fixture.corruptAddr = (false, none) :=
  ⟨by decide,
   (loadActor_Get_error_as_not_found
      (Fixture.view (Fixture.market (0, none)) { TotalLocked := (0, none) }) Fixture.corruptAddr
      Fixture.stateMap (Err.external 9) (Fixture.actor "") rfl rfl).1,
   (loadActor_Get_error_as_not_found
      (Fixture.view (Fixture.market (0, none)) { TotalLocked := (0, none) }) Fixture.corruptAddr
      Fixture.stateMap (Err.external 9) (Fixture.actor "") rfl rfl).2 rfl⟩

/-! ## Sector iteration lemmas -/

/-- A match that rebuilds the pair it inspects is the pair. -/
theorem rebuild_pair {σ : Type} (r : σ × Option Err) :
    (match r with
      | (s', some err) => (s', some err)
      | (s', none) => (s', none)) = r := by
  rcases r with ⟨s', _ | e⟩ <;> rfl

/-- The result of `MinerSectorsForEach` for a miner that loads and whose
sector array opens, by the actors version of the view. -/
theorem MinerSectorsForEach_eq {σ : Type} (v : View) (maddr : Address) (st : MinerState)
    (arr : AdtArray) (f : σ → Nat → Cid → Int → List Nat → σ × Option Err) (s : σ)
    (hload : v.loadMinerActor maddr = Except.ok st) (harr : st.SectorArray = Except.ok arr) :
    v.MinerSectorsForEach maddr f s =
      if v.ipldStore.specactorsVersion v.networkVersion = 0 then
        arr.ForEach SectorRecord.miner0 (MinerSectorsForEach.visit f) s
      else if v.ipldStore.specactorsVersion v.networkVersion = 2 then
        arr.ForEach SectorRecord.miner2 (MinerSectorsForEach.visit f) s
      else (s, none) := by
  simp only [View.MinerSectorsForEach, hload, harr, rebuild_pair]

/-- On slots that all decode, the traversal of the array is the traversal
in order of the decoded records. -/
theorem ForEachFrom_visit {σ : Type} (f : σ → Nat → Cid → Int → List Nat → σ × Option Err)
    (infos : List SectorOnChainInfo) :
    ∀ (i : Nat) (s : σ),
      Sequence.ForEachFrom (MinerSectorsForEach.visit f) i (infos.map Except.ok) s
        = visitInOrder f infos s := by
  induction infos with
  | nil => intro i s; rfl
  | cons info rest ih =>
    intro i s
    simp only [List.map_cons, Sequence.ForEachFrom, visitInOrder, MinerSectorsForEach.visit,
      callOn]
    rcases f s info.SectorNumber info.SealedCID info.SealProof info.DealIDs with ⟨s', _ | e⟩
    · exact ih (i + 1) s'
    · rfl

/-- A visitor that fails on none of the records is called on all of them. -/
theorem visitInOrder_no_error {σ : Type} (f : σ → Nat → Cid → Int → List Nat → σ × Option Err)
    (infos : List SectorOnChainInfo) :
    ∀ s : σ, (∀ s' info, info ∈ infos → (callOn f s' info).2 = none) →
      visitInOrder f infos s = (visitedState f infos s, none) := by
  induction infos with
  | nil => intro s _; rfl
  | cons info rest ih =>
    intro s h
    have h1 := h s info (List.mem_cons_self info rest)
    simp only [visitInOrder, visitedState, List.foldl_cons]
    rcases hc : callOn f s info with ⟨s', _ | e⟩
    · simp only
      exact ih s' (fun s'' i hi => h s'' i (List.mem_cons_of_mem info hi))
    · rw [hc] at h1; cases h1

/-- A visitor that fails on the record `x`, after records on which it does
not fail, is called on no record after `x`, and its error is the result. -/
theorem visitInOrder_stops {σ : Type} (f : σ → Nat → Cid → Int → List Nat → σ × Option Err)
    (pre : List SectorOnChainInfo) (x : SectorOnChainInfo) (post : List SectorOnChainInfo)
    (e : Err) :
    ∀ s : σ, (∀ s' info, info ∈ pre → (callOn f s' info).2 = none) →
      (callOn f (visitedState f pre s) x).2 = some e →
      visitInOrder f (pre ++ x :: post) s = ((callOn f (visitedState f pre s) x).1, some e) := by
  induction pre with
  | nil =>
    intro s _ hx
    simp only [visitedState, List.foldl_nil] at hx
    simp only [List.nil_append, visitInOrder, visitedState, List.foldl_nil]
    rcases hc : callOn f s x with ⟨s', _ | e'⟩
    · rw [hc] at hx; cases hx
    · rw [hc] at hx
      simp only [Option.some.injEq] at hx
      simp [hx]
  | cons info rest ih =>
    intro s h hx
    have h1 := h s info (List.mem_cons_self info rest)
    simp only [visitedState, List.foldl_cons] at hx
    simp only [List.cons_append, visitInOrder, visitedState, List.foldl_cons]
    rcases hc : callOn f s info with ⟨s', _ | e'⟩
    · simp only
      rw [hc] at hx
      exact ih s' (fun s'' i hi => h s'' i (List.mem_cons_of_mem info hi)) hx
    · rw [hc] at h1; cases h1

/-! ## Theorems on miner existence, sectors and peer identifiers -/

/-- C11. `MinerExists` returns true and no error exactly when the miner
actor loads, that is when the address resolves, the actor record is found
and the miner state loads from it; it returns false and no error exactly
when loading fails with `types.ErrNotFound`; and for every other load
failure it returns false together with that same error. -/
theorem MinerExists_iff_loads (v : View) (maddr : Address) :
    (v.MinerExists maddr = (true, none) ↔ ∃ st, v.loadMinerActor maddr = Except.ok st) ∧
    ((∃ st, v.loadMinerActor maddr = Except.ok st) ↔
      ∃ resolvedAddr actr st, v.InitResolveAddress maddr = (resolvedAddr, none) ∧
        v.loadActor resolvedAddr = Except.ok actr ∧
        v.ipldStore.minerLoad actr = Except.ok st) ∧
    (v.MinerExists maddr = (false, none) ↔
      v.loadMinerActor maddr = Except.error Err.ErrNotFound) ∧
    (∀ e, v.loadMinerActor maddr = Except.error e → e ≠ Err.ErrNotFound →
      v.MinerExists maddr = (false, some e)) := by
  refine ⟨?_, ?_, ?_, ?_⟩
  · cases hl : v.loadMinerActor maddr with
    | error e =>
      by_cases he : e = Err.ErrNotFound <;> simp [View.MinerExists, hl, he]
    | ok st => simp [View.MinerExists, hl]
  · unfold View.loadMinerActor
    rcases hr : v.InitResolveAddress maddr with ⟨resolvedAddr, _ | e⟩
    · cases ha : v.loadActor resolvedAddr with
      | error e => simp [ha]
      | ok actr => simp [ha]
    · simp
  · cases hl : v.loadMinerActor maddr with
    | error e =>
      by_cases he : e = Err.ErrNotFound <;> simp [View.MinerExists, hl, he]
    | ok st => simp [View.MinerExists, hl]
  · intro e hl he
    simp [View.MinerExists, hl, he]

/-- C11, at the fixtures: the miner's address gives true, an address
without actor gives false and no error, and a store whose reads fail gives
false with the error of the read. -/
theorem MinerExists_iff_loads_witness :
    (Fixture.minerView Fixture.decodedMiner).MinerExists Fixture.minerAddr = (true, none) ∧
    (Fixture.minerView Fixture.decodedMiner).MinerExists (Address.newID 5) = (false, none) ∧
    Fixture.failingView.MinerExists (Address.newID 5) = (false, some (Err.external 1)) :=
  ⟨(MinerExists_iff_loads (Fixture.minerView Fixture.decodedMiner) Fixture.minerAddr).1.2
      ⟨Fixture.decodedMiner, rfl⟩,
   (MinerExists_iff_loads (Fixture.minerView Fixture.decodedMiner) (Address.newID 5)).2.2.1.2 rfl,
   (MinerExists_iff_loads Fixture.failingView (Address.newID 5)).2.2.2 (Err.external 1) rfl
      (by decide)⟩

/-- C12, as the code has it. For a miner that loads and whose sector array
opens, the sector record that `MinerSectorsForEach` decodes with follows
the actors version derived from the network version of the view, whatever
the schema version of the miner actor is: with actors version 0 the result
is the traversal that decodes with the version-0 record, with actors
version 2 the traversal that decodes with the version-2 record. -/
theorem MinerSectorsForEach_dispatch_by_network_version {σ : Type} (v : View) (maddr : Address)
    (st : MinerState) (arr : AdtArray) (f : σ → Nat → Cid → Int → List Nat → σ × Option Err)
    (s : σ) (hload : v.loadMinerActor maddr = Except.ok st)
    (harr : st.SectorArray = Except.ok arr) :
    (v.ipldStore.specactorsVersion v.networkVersion = 0 →
      v.MinerSectorsForEach maddr f s
        = arr.ForEach SectorRecord.miner0 (MinerSectorsForEach.visit f) s) ∧
    (v.ipldStore.specactorsVersion v.networkVersion = 2 →
      v.MinerSectorsForEach maddr f s
        = arr.ForEach SectorRecord.miner2 (MinerSectorsForEach.visit f) s) := by
  constructor
  · intro h
    rw [MinerSectorsForEach_eq v maddr st arr f s hload harr, if_pos h]
  · intro h
    have h0 : ¬ v.ipldStore.specactorsVersion v.networkVersion = 0 := by omega
    rw [MinerSectorsForEach_eq v maddr st arr f s hload harr, if_neg h0, if_pos h]

/-- C12, at a miner of schema version 2 under a view of actors version 0:
its sectors are decoded with the version-0 record, which fails on the first
one. -/
theorem MinerSectorsForEach_dispatch_by_network_version_witness :
    (Fixture.sectorMiner 2).actorsVersion = 2 ∧
    (Fixture.versionView 0 (Fixture.sectorMiner 2)).MinerSectorsForEach Fixture.minerAddr
        logVisitor [] = ([], some (Err.external 10)) := by
  refine ⟨rfl, ?_⟩
  rw [(MinerSectorsForEach_dispatch_by_network_version
    (Fixture.versionView 0 (Fixture.sectorMiner 2)) Fixture.minerAddr (Fixture.sectorMiner 2)
    { slots := [Fixture.storedSector 2 1, Fixture.storedSector 2 2, Fixture.storedSector 2 3] }
    logVisitor [] rfl rfl).1 rfl]
  rfl

/-- C12 fails as stated: the miner has schema version 0 and its three
sectors decode with the version-0 record, which would give three visits,
but under a view whose actors version is 2 `MinerSectorsForEach` decodes
with the version-2 record: it returns the decode error of that record and
visits nothing. -/
theorem MinerSectorsForEach_dispatch_counterexample :
    (Fixture.sectorMiner 0).actorsVersion = 0 ∧
    (AdtArray.ForEach
        { slots := [Fixture.storedSector 0 1, Fixture.storedSector 0 2, Fixture.storedSector 0 3] }
        SectorRecord.miner0 (MinerSectorsForEach.visit logVisitor) [])
      = (Fixture.sectors, none) ∧
    (Fixture.versionView 2 (Fixture.sectorMiner 0)).MinerSectorsForEach Fixture.minerAddr
        logVisitor [] = ([], some (Err.external 11)) :=
  ⟨rfl, rfl, rfl⟩

/-- A miner loads only if the top-level state mapping of the view opens. -/
theorem loadMinerActor_ok_asMap (v : View) (maddr : Address) (st : MinerState)
    (hload : v.loadMinerActor maddr = Except.ok st) :
    ∃ tree, v.asMap v.root = Except.ok tree := by
  cases hm : v.asMap v.root with
  | ok tree => exact ⟨tree, rfl⟩
  | error e =>
    have hact : ∀ a, v.loadActor a = Except.error e := by
      intro a
      simp [View.loadActor, hm]
    unfold View.loadMinerActor at hload
    rcases hr : v.InitResolveAddress maddr with ⟨resolvedAddr, _ | e'⟩
    · rw [hr] at hload
      simp [hact resolvedAddr] at hload
    · rw [hr] at hload
      simp at hload

/-- The traversal of `MinerSectorsForEach` when the actors version of the
view is 0 or 2 and the sector array decodes, with the record of that
version, to the records `infos`. -/
theorem MinerSectorsForEach_of_version {σ : Type} (v : View) (maddr : Address)
    (st : MinerState) (arr : AdtArray) (record : SectorRecord) (infos : List SectorOnChainInfo)
    (f : σ → Nat → Cid → Int → List Nat → σ × Option Err) (s : σ)
    (hload : v.loadMinerActor maddr = Except.ok st)
    (harr : st.SectorArray = Except.ok arr)
    (hver : (v.ipldStore.specactorsVersion v.networkVersion = 0 ∧ record = SectorRecord.miner0) ∨
      (v.ipldStore.specactorsVersion v.networkVersion = 2 ∧ record = SectorRecord.miner2))
    (hdec : arr.slots.map (SectorSlot.decode record) = infos.map Except.ok) :
    v.MinerSectorsForEach maddr f s = visitInOrder f infos s := by
  rw [MinerSectorsForEach_eq v maddr st arr f s hload harr]
  rcases hver with ⟨h0, hr⟩ | ⟨h2, hr⟩
  · subst hr
    rw [if_pos h0, AdtArray.ForEach, hdec, ForEachFrom_visit]
  · subst hr
    have h0 : ¬ v.ipldStore.specactorsVersion v.networkVersion = 0 := by omega
    rw [if_neg h0, if_pos h2, AdtArray.ForEach, hdec, ForEachFrom_visit]

/-- C13. For a view whose `adt.AsMap` opens a mapping for the actors
versions 0 and 2 only, a miner that loads, whose sector array opens and
whose elements all decode, with the sector record of the view's actors
version, to the records `infos`: `MinerSectorsForEach` calls the visitor on
the sector number, sealed CID, seal proof and deal IDs of each record in
ascending index order, stopping at the first error of the visitor; a
visitor that fails on none of them has been called once on each and the
result is no error; a visitor that fails with `e` on the record `x` is
called on no record after `x` and the result is `e` itself. -/
theorem MinerSectorsForEach_visits_in_order {σ : Type} (v : View) (maddr : Address)
    (st : MinerState) (arr : AdtArray) (record : SectorRecord) (infos : List SectorOnChainInfo)
    (f : σ → Nat → Cid → Int → List Nat → σ × Option Err) (s : σ)
    (hAsMap : ∀ root version tree,
      v.ipldStore.AsMap root version = Except.ok tree → version = 0 ∨ version = 2)
    (hload : v.loadMinerActor maddr = Except.ok st)
    (harr : st.SectorArray = Except.ok arr)
    (hrec : (v.ipldStore.specactorsVersion v.networkVersion = 0 → record = SectorRecord.miner0) ∧
      (v.ipldStore.specactorsVersion v.networkVersion = 2 → record = SectorRecord.miner2))
    (hdec : arr.slots.map (SectorSlot.decode record) = infos.map Except.ok) :
    v.MinerSectorsForEach maddr f s = visitInOrder f infos s ∧
    ((∀ s' info, info ∈ infos → (callOn f s' info).2 = none) →
      v.MinerSectorsForEach maddr f s = (visitedState f infos s, none)) ∧
    (∀ pre x post e, infos = pre ++ x :: post →
      (∀ s' info, info ∈ pre → (callOn f s' info).2 = none) →
      (callOn f (visitedState f pre s) x).2 = some e →
      v.MinerSectorsForEach maddr f s = ((callOn f (visitedState f pre s) x).1, some e)) := by
  have hver : (v.ipldStore.specactorsVersion v.networkVersion = 0 ∧ record = SectorRecord.miner0) ∨
      (v.ipldStore.specactorsVersion v.networkVersion = 2 ∧ record = SectorRecord.miner2) := by
    obtain ⟨tree, htree⟩ := loadMinerActor_ok_asMap v maddr st hload
    rcases hAsMap v.root _ tree htree with h0 | h2
    · exact Or.inl ⟨h0, hrec.1 h0⟩
    · exact Or.inr ⟨h2, hrec.2 h2⟩
  have hres : v.MinerSectorsForEach maddr f s = visitInOrder f infos s :=
    MinerSectorsForEach_of_version v maddr st arr record infos f s hload harr hver hdec
  refine ⟨hres, ?_, ?_⟩
  · intro h
    rw [hres, visitInOrder_no_error f infos s h]
  · intro pre x post e hsplit hpre hx
    rw [hres, hsplit, visitInOrder_stops f pre x post e s hpre hx]

/-- C13, at a miner of schema version 2 with the sectors 1, 2 and 3, under
a view of actors version 2 whose `adt.AsMap` opens for the versions 0 and 2
only, and a visitor that fails on sector 2: sectors 1 and 2 are visited,
sector 3 is not, and the result is the error of the visitor. -/
theorem MinerSectorsForEach_visits_in_order_witness :
    (Fixture.strictView 2 (Fixture.sectorMiner 2)).MinerSectorsForEach Fixture.minerAddr
        (failingVisitor 2) []
      = ([Fixture.sector 1, Fixture.sector 2], some (Err.external 20)) :=
  (MinerSectorsForEach_visits_in_order (Fixture.strictView 2 (Fixture.sectorMiner 2))
    Fixture.minerAddr (Fixture.sectorMiner 2)
    { slots := [Fixture.storedSector 2 1, Fixture.storedSector 2 2, Fixture.storedSector 2 3] }
    SectorRecord.miner2 Fixture.sectors (failingVisitor 2) []
    (by
      intro root version tree h
      by_cases hv : version = 0 ∨ version = 2
      · exact hv
      · simp [Fixture.strictView, hv] at h)
    rfl rfl ⟨fun h => absurd h (by decide), fun _ => rfl⟩
    rfl).2.2 [Fixture.sector 1] (Fixture.sector 2) [Fixture.sector 3] (Err.external 20) rfl
    (by
      intro s' info hinfo
      simp only [List.mem_singleton] at hinfo
      subst hinfo
      rfl)
    rfl

/-- C14. What the code does for a sector that does not exist: when the
miner loads and its `GetSector` returns no record and no error,
`MinerGetSector` returns the nil record with found = true and no error; and
so does `MinerGetPrecommittedSector` when `GetPrecommittedSector` returns no
record and no error. -/
theorem MinerGetSector_absent_reports_found (v : View) (maddr : Address) (st : MinerState)
    (sectorNum : Nat) (hload : v.loadMinerActor maddr = Except.ok st) :
    (st.GetSector sectorNum = (none, none) →
      v.MinerGetSector maddr sectorNum = (none, true, none)) ∧
    (st.GetPrecommittedSector sectorNum = (none, none) →
      v.MinerGetPrecommittedSector maddr sectorNum = (none, true, none)) := by
  constructor
  · intro h
    simp [View.MinerGetSector, hload, h]
  · intro h
    simp [View.MinerGetPrecommittedSector, hload, h]

/-- C14, at the sector number 5, which the miner of the fixtures does not
hold. -/
theorem MinerGetSector_absent_reports_found_witness :
    (Fixture.sectorMiner 0).GetSector 5 = (none, none) ∧
    (Fixture.minerView (Fixture.sectorMiner 0)).MinerGetSector Fixture.minerAddr 5
      = (none, true, none) :=
  ⟨rfl,
   (MinerGetSector_absent_reports_found (Fixture.minerView (Fixture.sectorMiner 0))
      Fixture.minerAddr (Fixture.sectorMiner 0) 5 rfl).1 rfl⟩

/-- C15. When the actors version derived from the network version of the
view is neither 0 nor 2, the miner loads and its sector array opens,
`MinerSectorsForEach` returns no error and leaves the state of the visitor
as it was, for every visitor and whatever the array holds: the visitor is
not called, as for an array without sectors. -/
theorem MinerSectorsForEach_unsupported_version {σ : Type} (v : View) (maddr : Address)
    (st : MinerState) (arr : AdtArray) (f : σ → Nat → Cid → Int → List Nat → σ × Option Err)
    (s : σ) (hload : v.loadMinerActor maddr = Except.ok st)
    (harr : st.SectorArray = Except.ok arr)
    (h0 : v.ipldStore.specactorsVersion v.networkVersion ≠ 0)
    (h2 : v.ipldStore.specactorsVersion v.networkVersion ≠ 2) :
    v.MinerSectorsForEach maddr f s = (s, none) ∧
    v.MinerSectorsForEach maddr f s = visitInOrder f [] s := by
  have h : v.MinerSectorsForEach maddr f s = (s, none) := by
    rw [MinerSectorsForEach_eq v maddr st arr f s hload harr, if_neg h0, if_neg h2]
  exact ⟨h, h.trans rfl⟩

/-- C15, at a view whose actors version is 3 and a visitor that fails on
sector 1: the miner holds the sectors 1, 2 and 3, nothing is visited and no
error is returned. -/
theorem MinerSectorsForEach_unsupported_version_witness :
    (Fixture.versionView 3 (Fixture.sectorMiner 2)).MinerSectorsForEach Fixture.minerAddr
        (failingVisitor 1) [] = ([], none) :=
  (MinerSectorsForEach_unsupported_version (Fixture.versionView 3 (Fixture.sectorMiner 2))
    Fixture.minerAddr (Fixture.sectorMiner 2)
    { slots := [Fixture.storedSector 2 1, Fixture.storedSector 2 2, Fixture.storedSector 2 3] }
    (failingVisitor 1) [] rfl rfl (by decide) (by decide)).1

/-- C16. `MinerPeerID`: when `MinerInfo` succeeds and the info carries a
peer identifier, it returns that identifier and no error; when `MinerInfo`
fails, it returns the empty identifier and that error; when `MinerInfo`
succeeds and the peer identifier is nil, the call panics on the nil
dereference and returns neither a value nor an error. -/
theorem MinerPeerID_outcomes (v : View) (maddr : Address) :
    (∀ info peerId, v.MinerInfo maddr = (some info, none) → info.PeerId = some peerId →
      v.MinerPeerID maddr = Outcome.returned (peerId, none)) ∧
    (∀ info e, v.MinerInfo maddr = (info, some e) →
      v.MinerPeerID maddr = Outcome.returned ("", some e)) ∧
    (∀ info, v.MinerInfo maddr = (some info, none) → info.PeerId = none →
      v.MinerPeerID maddr = Outcome.panic) := by
  refine ⟨?_, ?_, ?_⟩
  · intro info peerId h hp
    simp [View.MinerPeerID, h, hp]
  · intro info e h
    simp [View.MinerPeerID, h]
  · intro info h hp
    simp [View.MinerPeerID, h, hp]

/-- C16, at a miner whose info has a nil peer identifier, at the miner of
the fixtures, whose peer identifier is `peer`, and at a store whose reads
fail. -/
theorem MinerPeerID_outcomes_witness :
    (Fixture.minerView { Fixture.sectorMiner 0 with
        Info := Except.ok (Fixture.minerInfo none) }).MinerPeerID Fixture.minerAddr
      = Outcome.panic ∧
    (Fixture.minerView (Fixture.sectorMiner 0)).MinerPeerID Fixture.minerAddr
      = Outcome.returned ("peer", none) ∧
    Fixture.failingView.MinerPeerID Fixture.minerAddr
      = Outcome.returned ("", some (Err.external 1)) :=
  ⟨(MinerPeerID_outcomes (Fixture.minerView { Fixture.sectorMiner 0 with
        Info := Except.ok (Fixture.minerInfo none) }) Fixture.minerAddr).2.2
      (Fixture.minerInfo none) rfl rfl,
   (MinerPeerID_outcomes (Fixture.minerView (Fixture.sectorMiner 0)) Fixture.minerAddr).1
      (Fixture.minerInfo (some "peer")) "peer" rfl rfl,
   (MinerPeerID_outcomes Fixture.failingView Fixture.minerAddr).2.1 none (Err.external 1) rfl⟩

end Venus
